import Mathlib

/-!
Verification of the snap-point geometry, drag-decision, lifecycle and
keyboard-avoidance logic of the `react-modal-sheet` bottom-sheet widget.

The TypeScript sources are embedded shallowly: pure numeric code becomes
functions over `ℚ` (JS numbers are used here only in ranges where float
rounding is irrelevant to the claims), stateful hook code becomes explicit
state-passing step functions, and DOM / animation side effects are recorded
as values of small action types.
-/

/-! ## Data model (`src/types.ts`)

`SheetSnapPoint` from `types.ts`: `snapValue` is the resting height measured
from the bottom, `snapValueY` the same position as a top-anchored offset.
-/

structure SnapPoint where
  snapIndex : ℕ
  snapValue : ℚ
  snapValueY : ℚ
deriving DecidableEq

/-- Drag direction, per the `'down' | 'up'` strings in `sheet.tsx`. -/
inductive DragDirection where
  | down
  | up
deriving DecidableEq

/-- Result record `{ yTo: number; snapIndex: number | undefined }` produced by
the drag-end handlers in `sheet.tsx`. -/
structure DragResult where
  yTo : ℚ
  snapIndex : Option ℕ
deriving DecidableEq

/-! ## Geometry utilities (`src/utils.ts`) -/

/-- `isAscendingOrder` from `utils.ts`: the JS loop runs `i` up to
`arr.length - 1` and tests `arr[i + 1] < arr[i]`; at the last index
`arr[i + 1]` is `undefined` and `undefined < x` is `false`, so that final
comparison never fires.  The loop therefore returns `false` exactly when some
adjacent pair strictly descends. -/
def isAscendingOrder : List ℚ → Bool
  | a :: b :: rest => if b < a then false else isAscendingOrder (b :: rest)
  | _ => true

/-- `mixNumber` from `motion` (used by `applyConstraints`):
`mixNumber(from, to, progress) = from + (to - from) * progress`. -/
def mixNumber (a b p : ℚ) : ℚ := a + (b - a) * p

/-- `Axis` from `motion/react`: a `{min, max}` pair, used both for bounds and
for per-side elastic factors. -/
structure Axis where
  min : ℚ
  max : ℚ
deriving DecidableEq

/-- `Partial<Axis>`: both bounds optional. -/
structure PartialAxis where
  min : Option ℚ
  max : Option ℚ
deriving DecidableEq

/-- The `else if` (max) branch of `applyConstraints` in `utils.ts`. -/
def applyConstraintsMax (point : ℚ) (mx? : Option ℚ) (elastic : Option Axis) : ℚ :=
  match mx? with
  | some mx =>
    if mx < point then
      match elastic with
      | some e => mixNumber mx point e.max
      | none => min point mx
    else point
  | none => point

/-- `applyConstraints` from `utils.ts`: if a min bound is defined and the point
lies below it, either mix toward the bound by the elastic factor or clamp;
otherwise the symmetric check against the max bound. -/
def applyConstraints (point : ℚ) (b : PartialAxis) (elastic : Option Axis) : ℚ :=
  match b.min with
  | some mn =>
    if point < mn then
      match elastic with
      | some e => mixNumber mn point e.min
      | none => max point mn
    else applyConstraintsMax point b.max elastic
  | none => applyConstraintsMax point b.max elastic

/-- Strict ascending order as the spec's ordering contract states it
("strictly ascending by `snapValue`"); used to compare against the code's
`isAscendingOrder`. -/
def strictlyAscendingSpec : List ℚ → Bool
  | a :: b :: rest => if a < b then strictlyAscendingSpec (b :: rest) else false
  | _ => true

/-! ## Snap point engine (`src/snap.ts`, modelled from the spec)

`snap.ts` itself is not among the provided sources; only its caller
`sheet.tsx` is.  The three functions below are therefore modelled from the
spec's §4.1 descriptions. -/

/-- Modelled from the spec: a configured snap value between 0 and 1 is a
fraction of the container height, a value ≥ 1 is absolute pixels
(`computeSnapPoints` of the missing `src/snap.ts`). -/
def resolveSnapValue (sheetHeight v : ℚ) : ℚ :=
  if v < 1 then v * sheetHeight else v

/-- Clamp a value into `[lo, hi]`. -/
def clampQ (v lo hi : ℚ) : ℚ := max lo (min v hi)

/-- Insert into an ascending, duplicate-free list, keeping it ascending and
duplicate-free. -/
def insertAscending (x : ℚ) : List ℚ → List ℚ
  | [] => [x]
  | y :: ys =>
    if x < y then x :: y :: ys
    else if x = y then y :: ys
    else y :: insertAscending x ys

/-- Modelled from the spec: `computeSnapPoints` of the missing `src/snap.ts`.
Every configured value is resolved (fraction vs. pixels) and clamped into
`[minSnapValue, maxSnapValue]`; the dismiss value `minSnapValue` is always
included; the result is the ascending-sorted deduplicated set, indexed by
position, with `snapValueY = containerHeight - snapValue` floored at 0. -/
def computeSnapPoints (snapPointsProp : List ℚ)
    (sheetHeight minSnapValue maxSnapValue : ℚ) : List SnapPoint :=
  let vals := snapPointsProp.map
    (fun v => clampQ (resolveSnapValue sheetHeight v) minSnapValue maxSnapValue)
  let sorted := (minSnapValue :: vals).foldr insertAscending []
  sorted.mapIdx fun i v => ⟨i, v, max (sheetHeight - v) 0⟩

/-- Modelled from the spec: `handleHighVelocityDrag` of the missing
`src/snap.ts`.  Selects the snap point adjacent to the point the sheet is
currently resting at, one list position toward index 0 when travelling down
and one toward the last index when travelling up, saturating at the
boundaries; the currently rested index is taken as an explicit input. -/
def handleHighVelocityDrag (snapPoints : List SnapPoint) (currentIndex : ℕ)
    (dragDirection : DragDirection) : DragResult :=
  let target : ℕ :=
    match dragDirection with
    | .down => currentIndex - 1
    | .up => min (currentIndex + 1) (snapPoints.length - 1)
  match snapPoints[target]? with
  | some sp => ⟨sp.snapValueY, some sp.snapIndex⟩
  | none => ⟨0, none⟩

/-- A snap point lies strictly beyond the current rendered position in the
direction of travel (`y` grows downward, so travelling down means larger
`snapValueY`). -/
def isBeyond (dragDirection : DragDirection) (currentY : ℚ) (sp : SnapPoint) : Bool :=
  match dragDirection with
  | .down => decide (currentY < sp.snapValueY)
  | .up => decide (sp.snapValueY < currentY)

/-- The released position lies strictly past the midpoint of the gap between
the current snap point and the candidate, in the direction of travel. -/
def pastMidpoint (dragDirection : DragDirection) (currentY : ℚ)
    (currentSnapPoint next : SnapPoint) : Bool :=
  let mid := (currentSnapPoint.snapValueY + next.snapValueY) / 2
  match dragDirection with
  | .down => decide (mid < currentY)
  | .up => decide (currentY < mid)

/-- The candidate whose `snapValueY` is nearest to the current rendered
position. -/
def nearestTo (currentY : ℚ) : List SnapPoint → Option SnapPoint
  | [] => none
  | sp :: rest =>
    match nearestTo currentY rest with
    | none => some sp
    | some best =>
      if |sp.snapValueY - currentY| < |best.snapValueY - currentY| then some sp
      else some best

/-- Modelled from the spec: `handleLowVelocityDrag` of the missing
`src/snap.ts`.  Among the snap points strictly beyond the current rendered
position in the direction of travel it finds the nearest one; the sheet moves
to it only when the released position has crossed strictly past the midpoint
of the gap between the current snap point and that candidate, and otherwise
(also when no candidate exists) returns to the current snap point.  Per the
spec the velocity's magnitude plays no role in this path, so it is not an
input here; the travel direction is the explicit `dragDirection` input. -/
def handleLowVelocityDrag (currentSnapPoint : SnapPoint) (currentY : ℚ)
    (dragDirection : DragDirection) (snapPoints : List SnapPoint) : DragResult :=
  let candidates := snapPoints.filter (isBeyond dragDirection currentY)
  match nearestTo currentY candidates with
  | none => ⟨currentSnapPoint.snapValueY, some currentSnapPoint.snapIndex⟩
  | some next =>
    if pastMidpoint dragDirection currentY currentSnapPoint next then
      ⟨next.snapValueY, some next.snapIndex⟩
    else ⟨currentSnapPoint.snapValueY, some currentSnapPoint.snapIndex⟩

/-- The list position one step from `i` in the travel direction, saturating at
the boundaries (used only to state properties of `handleHighVelocityDrag`). -/
def oneStep (len i : ℕ) : DragDirection → ℕ
  | .down => i - 1
  | .up => min (i + 1) (len - 1)

/-! ## The sheet component (`src/sheet.tsx`) -/

/-- The `snapPoints` memo of `sheet.tsx`:
`snapPointsProp && sheetHeight > 0 ? computeSnapPoints({...}) : []`.
The snap-point computation itself lives in `src/snap.ts` and is passed in as
the `compute` argument, so the guard is verified independently of it. -/
def sheetSnapPoints (compute : List ℚ → ℚ → ℚ → ℚ → List SnapPoint)
    (snapPointsProp : Option (List ℚ))
    (sheetHeight minSnapValue maxSnapValue : ℚ) : List SnapPoint :=
  match snapPointsProp with
  | some ps =>
    if 0 < sheetHeight then compute ps sheetHeight minSnapValue maxSnapValue
    else []
  | none => []

/-- `getSnapPoint` of `sheet.tsx`: requires the `snapPoints` prop (the
computed `snapPoints` array itself is always truthy in the JS condition),
warns and returns `null` when the index is out of range. -/
def getSnapPoint (snapPointsProp : Option (List ℚ)) (snapPoints : List SnapPoint)
    (snapIndex : ℤ) : Option SnapPoint :=
  match snapPointsProp with
  | some _ =>
    if snapIndex < 0 ∨ (snapPoints.length : ℤ) ≤ snapIndex then none
    else snapPoints[snapIndex.toNat]?
  | none => none

/-- The observable outcome of one `snapTo` call in `sheet.tsx`: a logged
warning (two distinct warning sites), the close callback, an immediate
`y.set` plus snap update, or an animation to a height plus snap update. -/
inductive SnapToAction where
  | warnNoSnapPoints
  | warnInvalidIndex
  | close
  | setImmediate (y : ℚ) (snapIndex : ℤ)
  | animateTo (y : ℚ) (snapIndex : ℤ)
deriving DecidableEq

/-- `snapTo` of `sheet.tsx`: warns without snap-point configuration, warns on
an invalid index, treats index 0 as dismiss (`onClose`), and otherwise sets or
animates `y` to the snap point's `snapValueY`. -/
def snapTo (snapPointsProp : Option (List ℚ)) (snapPoints : List SnapPoint)
    (snapIndex : ℤ) (immediate : Bool) : SnapToAction :=
  match snapPointsProp with
  | none => .warnNoSnapPoints
  | some _ =>
    match getSnapPoint snapPointsProp snapPoints snapIndex with
    | none => .warnInvalidIndex
    | some sp =>
      if snapIndex = 0 then .close
      else if immediate then .setImmediate sp.snapValueY snapIndex
      else .animateTo sp.snapValueY snapIndex

/-- The caller-visible sheet state that `snapTo` may mutate: the current snap
index (`currentSnap`) and the animated position value (`y`). -/
structure SheetUiState where
  currentSnap : Option ℤ
  yValue : ℚ
deriving DecidableEq

/-- How each `snapTo` outcome acts on the caller-visible state: only the
set/animate outcomes move `y` and update the snap index (for the animation,
on its completion); warnings and `onClose` leave the sheet state itself
untouched. -/
def applySnapToAction (a : SnapToAction) (s : SheetUiState) : SheetUiState :=
  match a with
  | .setImmediate y i => ⟨some i, y⟩
  | .animateTo y i => ⟨some i, y⟩
  | _ => s

/-- The observable outcome of the `onDragEnd` handler of `sheet.tsx`: the `y`
target handed to `animate`, the `updateSnap` calls made, and whether `onClose`
was invoked. -/
structure DragEndOutcome where
  yTo : ℚ
  snapUpdates : List ℕ
  closeCalled : Bool
deriving DecidableEq

/-- The drag-end decision of `onDragEnd` in `sheet.tsx` (lines 263–341).  The
snap-point branch receives the already-computed handler `result` (produced by
`handleHighVelocityDrag` / `handleLowVelocityDrag` of `src/snap.ts`), so its
dismissal handling is verified independently of those handlers.  With
`disableDismiss` and a target at the closed position the sheet is re-aimed at
the first snap point whose `snapValue` is strictly positive (falling back to
the current position); without a current snap point the two-state threshold
logic applies; `onClose` fires only when the final target is the closed
position and `disableDismiss` is off. -/
def dragEndDecision (disableDismiss : Bool)
    (dragVelocityThreshold dragCloseThreshold sheetHeight closedY : ℚ)
    (snapPoints : List SnapPoint) (currentSnapPoint : Option SnapPoint)
    (currentY velocityY : ℚ) (result : DragResult) : DragEndOutcome :=
  let core : ℚ × List ℕ :=
    match currentSnapPoint with
    | some _ =>
      if disableDismiss = true ∧ sheetHeight ≤ result.yTo + 1 then
        match snapPoints.find? (fun s => decide (0 < s.snapValue)) with
        | some bottom => (bottom.snapValueY, [bottom.snapIndex])
        | none => (currentY, [])
      else
        (result.yTo, match result.snapIndex with | some i => [i] | none => [])
    | none =>
      if dragVelocityThreshold < velocityY ∨ sheetHeight * dragCloseThreshold < currentY then
        (if disableDismiss then 0 else closedY, [])
      else (0, [])
  ⟨core.1, core.2, decide (sheetHeight ≤ core.1 + 1) && !disableDismiss⟩

/-- The snap point the spec's disable-dismiss rule names: the lowest snap
point above the dismiss value, the dismiss value being that of index 0
(stated from the claim's words, for comparison with the code). -/
def lowestNonDismissSnapPoint (snapPoints : List SnapPoint) : Option SnapPoint :=
  match snapPoints with
  | dismiss :: _ => snapPoints.find? (fun s => decide (dismiss.snapValue < s.snapValue))
  | [] => none

/-! ## Lifecycle state machine (`src/hooks/use-sheet-state.ts`)

The hook keeps a `SheetState` React state and an `AbortController` ref.  The
`[isOpen]` effect aborts the current controller and sets the state to
`opening`/`closing`; the `[state]` effect allocates a fresh controller, runs
the state's async handler, and — for the transient states — performs the
follow-up `setState` only if its own controller has not been aborted; its
cleanup aborts the controller.  Controllers are modelled as generation
numbers, an abort as membership in an `aborted` list, and each handler's
pending completion as a generation in a pending list. -/

/-- The four lifecycle states of `use-sheet-state.ts`. -/
inductive SheetState where
  | closed
  | opening
  | open_
  | closing
deriving DecidableEq

/-- The hook's mutable picture: the React state, the generation counter used
to mint abort controllers, the controller currently held by
`abortControllerRef`, which generations have been aborted, which open/close
effects have started but not yet settled, and how often each observable
event has happened. -/
structure SheetMachine where
  state : SheetState
  nextGen : ℕ
  currentGen : ℕ
  aborted : List ℕ
  pendingOpen : List ℕ
  pendingClose : List ℕ
  openEffectStarts : ℕ
  closeEffectStarts : ℕ
  openCompletions : ℕ
  closeCompletions : ℕ
deriving DecidableEq

/-- `abortControllerRef.current?.abort()`. -/
def abortCurrent (m : SheetMachine) : SheetMachine :=
  { m with aborted := m.currentGen :: m.aborted }

/-- The `[state]` effect body: a fresh `AbortController` becomes current and
`handle()` runs for the (already updated) state — entering `opening` starts
the open effect (`onOpening`), entering `closing` starts the close effect
(`onClosing`); the terminal states run their handlers with no follow-up
`setState`. -/
def startStateEffect (m : SheetMachine) : SheetMachine :=
  let g := m.nextGen
  let m' := { m with currentGen := g, nextGen := g + 1 }
  match m'.state with
  | .opening =>
    { m' with
      openEffectStarts := m'.openEffectStarts + 1
      pendingOpen := m'.pendingOpen ++ [g] }
  | .closing =>
    { m' with
      closeEffectStarts := m'.closeEffectStarts + 1
      pendingClose := m'.pendingClose ++ [g] }
  | _ => m'

/-- `setState st`: React bails out when the value is unchanged; otherwise the
previous `[state]` effect's cleanup aborts its controller and the effect
re-runs for the new state. -/
def setSheetState (m : SheetMachine) (st : SheetState) : SheetMachine :=
  if m.state = st then m
  else startStateEffect (abortCurrent { m with state := st })

/-- The `[isOpen]` effect: abort the current controller, then set the state
from the new intent. -/
def flipIntent (m : SheetMachine) (isOpen : Bool) : SheetMachine :=
  setSheetState (abortCurrent m) (if isOpen then .opening else .closing)

/-- Settlement of a started open or close effect, identified by the
generation of the controller its `handle()` run captured. -/
inductive ResolveEvent where
  | openDone (g : ℕ)
  | closeDone (g : ℕ)
deriving DecidableEq

/-- An effect settles: the corresponding `await` returns, and the code after
it — `if (!abortController.signal.aborted) setState(...)` — runs.  A
generation that is not pending (never started or already settled) does
nothing. -/
def resolveEffect (m : SheetMachine) : ResolveEvent → SheetMachine
  | .openDone g =>
    if g ∈ m.pendingOpen then
      let m' := { m with pendingOpen := m.pendingOpen.erase g }
      if g ∈ m'.aborted then m'
      else setSheetState { m' with openCompletions := m'.openCompletions + 1 } .open_
    else m
  | .closeDone g =>
    if g ∈ m.pendingClose then
      let m' := { m with pendingClose := m.pendingClose.erase g }
      if g ∈ m'.aborted then m'
      else setSheetState { m' with closeCompletions := m'.closeCompletions + 1 } .closed
    else m

/-- Run a sequence of effect settlements. -/
def runResolves (m : SheetMachine) (es : List ResolveEvent) : SheetMachine :=
  es.foldl resolveEffect m

/-- A machine resting in `closed` with no pending effects and with the event
counters zeroed, so the counters measure exactly what a subsequent intent
change causes. -/
def settledClosed : SheetMachine :=
  ⟨.closed, 1, 0, [], [], [], 0, 0, 0, 0⟩

/-! ## Keyboard avoidance (`src/hooks/use-resize-observer.ts`,
`useVirtualKeyboard`) -/

/-- The `{ isVisible, height }` state published by `useVirtualKeyboard`. -/
structure VirtualKeyboardState where
  isVisible : Bool
  height : ℚ
deriving DecidableEq

/-- The hook's initial state: `{ isVisible: false, height: 0 }`. -/
def initialKeyboardState : VirtualKeyboardState := ⟨false, 0⟩

/-- The debounced body of `updateKeyboardState` in `useVirtualKeyboard`:
when no tracked text input is focused it publishes the hidden state; with the
`navigator.virtualKeyboard` API it publishes that rect height (visible iff
positive); in the visual-viewport fallback it publishes the window/viewport
height difference when that strictly exceeds the threshold and the hidden
state otherwise; with neither API nothing is published. -/
def updateKeyboardState (inputIsFocused : Bool) (vkBoundingRectHeight : Option ℚ)
    (vvHeights : Option (ℚ × ℚ)) (visualViewportThreshold : ℚ) :
    Option VirtualKeyboardState :=
  if !inputIsFocused then some ⟨false, 0⟩
  else
    match vkBoundingRectHeight with
    | some vkHeight => some ⟨decide (0 < vkHeight), vkHeight⟩
    | none =>
      match vvHeights with
      | some (windowInnerHeight, vvHeight) =>
        let heightDiff := windowInnerHeight - vvHeight
        if visualViewportThreshold < heightDiff then some ⟨true, heightDiff⟩
        else some ⟨false, 0⟩
      | none => none

/-! ## C7 — the ordering validator -/

/-- C7 counterexample: the array `[1, 1]` has two equal adjacent values, so it
is not strictly ascending, yet `isAscendingOrder` accepts it — the validator
does not report every non-strictly-ascending array. -/
theorem isAscendingOrder_equal_pair_not_reported :
    isAscendingOrder [1, 1] = true ∧ strictlyAscendingSpec [1, 1] = false := by
  constructor <;> rfl

/-- C7 (amended): `isAscendingOrder` returns `false` exactly when the array is
not weakly ascending, i.e. it accepts precisely the arrays whose adjacent
pairs are all `≤`-related; an adjacent strictly descending pair is reported,
but equal adjacent values are accepted. -/
theorem isAscendingOrder_iff_weakly_ascending (l : List ℚ) :
    isAscendingOrder l = true ↔ List.Chain' (· ≤ ·) l := by
  induction l with
  | nil => simp [isAscendingOrder]
  | cons a t ih =>
    cases t with
    | nil => simp [isAscendingOrder]
    | cons b r =>
      by_cases h : b < a
      · simp only [isAscendingOrder, if_pos h, List.chain'_cons]
        constructor
        · intro hf; exact absurd hf (by simp)
        · rintro ⟨hab, -⟩; exact absurd hab (not_le.mpr h)
      · simp only [isAscendingOrder, if_neg h, List.chain'_cons]
        rw [ih]
        simp [not_lt.mp h]

/-! ## C8 — elastic constraint application -/

/-- C8: with bounds `min ≤ max` and elastic factors strictly between 0 and 1,
a point below `min` renders as `mixNumber min p elasticMin` (or clamps to
`max p min` without an elastic factor), symmetrically above `max`; and a point
`d > 0` pixels past `max` with elastic factor `0.1` renders strictly between 0
and `d` pixels past `max`, strictly monotonically increasing in `d`. -/
theorem applyConstraints_spec (p mn mx eMin eMax : ℚ) (hb : mn ≤ mx)
    (he₁ : 0 < eMin) (he₂ : eMin < 1) (he₃ : 0 < eMax) (he₄ : eMax < 1) :
    (p < mn →
      applyConstraints p ⟨some mn, some mx⟩ (some ⟨eMin, eMax⟩) = mixNumber mn p eMin ∧
      applyConstraints p ⟨some mn, some mx⟩ none = max p mn) ∧
    (mx < p →
      applyConstraints p ⟨some mn, some mx⟩ (some ⟨eMin, eMax⟩) = mixNumber mx p eMax ∧
      applyConstraints p ⟨some mn, some mx⟩ none = min p mx) ∧
    (∀ d : ℚ, 0 < d →
      mx < applyConstraints (mx + d) ⟨some mn, some mx⟩ (some ⟨1/10, 1/10⟩) ∧
      applyConstraints (mx + d) ⟨some mn, some mx⟩ (some ⟨1/10, 1/10⟩) < mx + d) ∧
    (∀ d₁ d₂ : ℚ, 0 < d₁ → d₁ < d₂ →
      applyConstraints (mx + d₁) ⟨some mn, some mx⟩ (some ⟨1/10, 1/10⟩) <
      applyConstraints (mx + d₂) ⟨some mn, some mx⟩ (some ⟨1/10, 1/10⟩)) := by
  refine ⟨fun hp => ?_, fun hp => ?_, fun d hd => ?_, fun d₁ d₂ hd₁ hd₂ => ?_⟩
  · constructor <;> simp [applyConstraints, if_pos hp]
  · have hnot : ¬ p < mn := not_lt.mpr (le_trans hb (le_of_lt hp))
    constructor <;>
      simp [applyConstraints, applyConstraintsMax, if_neg hnot, if_pos hp]
  · have hnot : ¬ mx + d < mn := not_lt.mpr (by linarith)
    have hgt : mx < mx + d := by linarith
    constructor <;>
      · simp only [applyConstraints, applyConstraintsMax, if_neg hnot, if_pos hgt,
          mixNumber]
        linarith
  · have hnot₁ : ¬ mx + d₁ < mn := not_lt.mpr (by linarith)
    have hnot₂ : ¬ mx + d₂ < mn := not_lt.mpr (by linarith)
    have hgt₁ : mx < mx + d₁ := by linarith
    have hgt₂ : mx < mx + d₂ := by linarith
    simp only [applyConstraints, applyConstraintsMax, if_neg hnot₁, if_neg hnot₂,
      if_pos hgt₁, if_pos hgt₂, mixNumber]
    linarith

/-- C8 witness: concrete bounds `[0, 10]`, elastic factors `0.1`, point `15`
(5 past `max`): the rendered value lies strictly between 10 and 15. -/
theorem applyConstraints_spec_witness :
    (0 : ℚ) ≤ 10 ∧ (0 : ℚ) < 1/10 ∧ (1/10 : ℚ) < 1 ∧ (0 : ℚ) < 5 ∧
    ((10 : ℚ) < applyConstraints (10 + 5) ⟨some 0, some 10⟩ (some ⟨1/10, 1/10⟩) ∧
      applyConstraints (10 + 5) ⟨some 0, some 10⟩ (some ⟨1/10, 1/10⟩) < 10 + 5) := by
  refine ⟨by norm_num, by norm_num, by norm_num, by norm_num, ?_⟩
  exact (applyConstraints_spec 15 0 10 (1/10) (1/10) (by norm_num) (by norm_num)
    (by norm_num) (by norm_num) (by norm_num)).2.2.1 5 (by norm_num)

/-! ## C5 — `snapTo` with an invalid index or no configuration -/

/-- C5: when no snap-point configuration was supplied, or the index is
negative or at least the number of computed snap points, `snapTo` only emits a
warning (one of its two warning outcomes) and leaves the current snap index
and the animated position value unchanged. -/
theorem snapTo_out_of_range_noop (cfg : Option (List ℚ)) (sps : List SnapPoint)
    (s : SheetUiState) (i : ℤ) (imm : Bool)
    (h : cfg = none ∨ i < 0 ∨ (sps.length : ℤ) ≤ i) :
    (snapTo cfg sps i imm = .warnNoSnapPoints ∨
      snapTo cfg sps i imm = .warnInvalidIndex) ∧
    applySnapToAction (snapTo cfg sps i imm) s = s := by
  cases cfg with
  | none => simp [snapTo, applySnapToAction]
  | some ps =>
    rcases h with h | h
    · exact absurd h (by simp)
    · have hg : getSnapPoint (some ps) sps i = none := by
        simp only [getSnapPoint]
        rw [if_pos h]
      simp [snapTo, hg, applySnapToAction]

/-- C5 witness: with configuration `[0.5]` but an empty computed list, index 5
is out of range, so `snapTo` warns and the sheet state `⟨none, 0⟩` is
untouched. -/
theorem snapTo_out_of_range_noop_witness :
    ((some [(1 : ℚ)/2] : Option (List ℚ)) = none ∨ (5 : ℤ) < 0 ∨
      ((([] : List SnapPoint)).length : ℤ) ≤ 5) ∧
    ((snapTo (some [(1 : ℚ)/2]) [] 5 false = .warnNoSnapPoints ∨
      snapTo (some [(1 : ℚ)/2]) [] 5 false = .warnInvalidIndex) ∧
      applySnapToAction (snapTo (some [(1 : ℚ)/2]) [] 5 false) ⟨none, 0⟩ = ⟨none, 0⟩) :=
  ⟨Or.inr (Or.inr (by decide)),
    snapTo_out_of_range_noop (some [(1 : ℚ)/2]) [] ⟨none, 0⟩ 5 false
      (Or.inr (Or.inr (by decide)))⟩

/-! ## C4 — `snapTo 0` as dismiss -/

/-- C4 counterexample: with snap points configured but the container height
not yet measured (height 0), the computed snap point list is empty, so
`snapTo 0` hits the invalid-index warning and does not invoke the close
callback — `snapTo(0)` does not close regardless of the measured height. -/
theorem snapTo_zero_unmeasured_warns :
    sheetSnapPoints computeSnapPoints (some [0, 1/2]) 0 0 500 = [] ∧
    snapTo (some [0, 1/2])
      (sheetSnapPoints computeSnapPoints (some [0, 1/2]) 0 0 500) 0 false =
      SnapToAction.warnInvalidIndex ∧
    SnapToAction.warnInvalidIndex ≠ SnapToAction.close := by
  refine ⟨rfl, ?_, by decide⟩
  rfl

/-- C4 (amended): whenever the computed snap point list is nonempty (snap
points configured and the container measured), `snapTo 0` invokes the close
callback — the action is `close` — and performs no animation or assignment of
the position value, leaving the caller-visible sheet state untouched; with an
empty computed list it degrades to the invalid-index warning instead. -/
theorem snapTo_zero_closes (ps : List ℚ) (sps : List SnapPoint) (s : SheetUiState)
    (imm : Bool) (h : 0 < sps.length) :
    snapTo (some ps) sps 0 imm = .close ∧
    applySnapToAction (snapTo (some ps) sps 0 imm) s = s := by
  have hcond : ¬((0 : ℤ) < 0 ∨ (sps.length : ℤ) ≤ 0) := by omega
  have hsp : sps[(0 : ℕ)]? = some sps[0] := List.getElem?_eq_getElem h
  have hg : getSnapPoint (some ps) sps 0 = some sps[0] := by
    simp only [getSnapPoint]
    rw [if_neg hcond]
    exact hsp
  constructor
  · simp [snapTo, hg]
  · simp [snapTo, hg, applySnapToAction]

/-- C4 witness: one computed snap point at height 500; `snapTo 0` closes and
leaves the state `⟨some 1, 100⟩` untouched. -/
theorem snapTo_zero_closes_witness :
    0 < ([⟨0, 0, 500⟩] : List SnapPoint).length ∧
    (snapTo (some [(0 : ℚ)]) [⟨0, 0, 500⟩] 0 false = .close ∧
      applySnapToAction (snapTo (some [(0 : ℚ)]) [⟨0, 0, 500⟩] 0 false)
        ⟨some 1, 100⟩ = ⟨some 1, 100⟩) :=
  ⟨by decide, snapTo_zero_closes [(0 : ℚ)] [⟨0, 0, 500⟩] ⟨some 1, 100⟩ false (by decide)⟩

/-! ## C6 — snap points only with a measured container -/

/-- C6: the `snapPoints` memo yields the empty list whenever the measured
height is not strictly positive or no snap points are configured, and calls
the snap-point computation exactly when snap points are configured and the
measured height is strictly positive — for every computation function. -/
theorem sheetSnapPoints_measurement_guard
    (compute : List ℚ → ℚ → ℚ → ℚ → List SnapPoint)
    (cfg : Option (List ℚ)) (h mn mx : ℚ) :
    (h ≤ 0 → sheetSnapPoints compute cfg h mn mx = []) ∧
    (cfg = none → sheetSnapPoints compute cfg h mn mx = []) ∧
    (∀ ps, cfg = some ps → 0 < h →
      sheetSnapPoints compute cfg h mn mx = compute ps h mn mx) := by
  refine ⟨fun hh => ?_, fun hc => ?_, fun ps hc hh => ?_⟩
  · cases cfg with
    | none => rfl
    | some ps =>
      simp only [sheetSnapPoints]
      rw [if_neg (not_lt.mpr hh)]
  · rw [hc]; rfl
  · rw [hc]
    simp only [sheetSnapPoints]
    rw [if_pos hh]

/-- C6 witness: with configuration `[0.5]` and measured height 0 the computed
snap point list is empty. -/
theorem sheetSnapPoints_measurement_guard_witness :
    (0 : ℚ) ≤ 0 ∧
    sheetSnapPoints computeSnapPoints (some [(1 : ℚ)/2]) 0 0 500 = [] :=
  ⟨le_refl 0,
    (sheetSnapPoints_measurement_guard computeSnapPoints (some [(1 : ℚ)/2]) 0 0 500).1
      (le_refl 0)⟩

/-! ## C1 — high-velocity drag picks the adjacent snap point -/

/-- C1: for a release above the velocity threshold, the high-velocity handler
returns the snap point exactly one list position from the currently rested
index in the direction of travel — one step toward index 0 when moving down
and one step toward the last index when moving up — and at the boundary in
that direction (index 0, or the last index) it returns that same boundary
index.  The snap point list is assumed to be indexed by position, as
`computeSnapPoints` creates it. -/
theorem handleHighVelocityDrag_adjacent (sps : List SnapPoint) (i : ℕ)
    (dir : DragDirection)
    (hw : ∀ j (hj : j < sps.length), (sps.get ⟨j, hj⟩).snapIndex = j)
    (hi : i < sps.length) :
    ∃ hl : oneStep sps.length i dir < sps.length,
      handleHighVelocityDrag sps i dir =
        ⟨(sps.get ⟨oneStep sps.length i dir, hl⟩).snapValueY,
          some (oneStep sps.length i dir)⟩ ∧
      (dir = .down → 0 < i → oneStep sps.length i dir = i - 1) ∧
      (dir = .down → i = 0 → oneStep sps.length i dir = 0) ∧
      (dir = .up → i + 1 < sps.length → oneStep sps.length i dir = i + 1) ∧
      (dir = .up → i = sps.length - 1 → oneStep sps.length i dir = i) := by
  cases dir with
  | down =>
    have hl : i - 1 < sps.length := lt_of_le_of_lt (Nat.sub_le i 1) hi
    have hw' := hw (i - 1) hl
    rw [List.get_eq_getElem] at hw'
    refine ⟨hl, ?_, fun _ _ => rfl, fun _ h0 => by simp [oneStep, h0],
      fun h _ => absurd h (by decide), fun h _ => absurd h (by decide)⟩
    simp only [handleHighVelocityDrag, oneStep]
    rw [List.getElem?_eq_getElem hl]
    simp [hw']
  | up =>
    have hl : min (i + 1) (sps.length - 1) < sps.length := by omega
    have hw' := hw (min (i + 1) (sps.length - 1)) hl
    rw [List.get_eq_getElem] at hw'
    refine ⟨hl, ?_, fun h _ => absurd h (by decide), fun h _ => absurd h (by decide),
      fun _ hup => by simp only [oneStep]; omega,
      fun _ hlast => by simp only [oneStep]; omega⟩
    simp only [handleHighVelocityDrag, oneStep]
    rw [List.getElem?_eq_getElem hl]
    simp [hw']

/-- C1 witness: with three snap points, resting at index 1, a fast downward
flick yields the adjacent point at index 0 (`y = 500`). -/
theorem handleHighVelocityDrag_adjacent_witness :
    (∀ j (hj : j < ([⟨0, 0, 500⟩, ⟨1, 100, 400⟩, ⟨2, 200, 300⟩] :
        List SnapPoint).length),
      (([⟨0, 0, 500⟩, ⟨1, 100, 400⟩, ⟨2, 200, 300⟩] :
        List SnapPoint).get ⟨j, hj⟩).snapIndex = j) ∧
    1 < ([⟨0, 0, 500⟩, ⟨1, 100, 400⟩, ⟨2, 200, 300⟩] : List SnapPoint).length ∧
    handleHighVelocityDrag [⟨0, 0, 500⟩, ⟨1, 100, 400⟩, ⟨2, 200, 300⟩] 1 .down =
      ⟨500, some 0⟩ := by
  refine ⟨by decide, by decide, ?_⟩
  obtain ⟨hl, heq, -, -, -, -⟩ :=
    handleHighVelocityDrag_adjacent [⟨0, 0, 500⟩, ⟨1, 100, 400⟩, ⟨2, 200, 300⟩] 1
      .down (by decide) (by decide)
  rw [heq]
  rfl

/-! ## C2 — low-velocity drag and the midpoint rule -/

/-- A nearest candidate always comes from the candidate list. -/
theorem nearestTo_mem (y : ℚ) (l : List SnapPoint) (sp : SnapPoint)
    (h : nearestTo y l = some sp) : sp ∈ l := by
  induction l with
  | nil => cases h
  | cons a t ih =>
    simp only [nearestTo] at h
    split at h
    · cases h
      exact List.mem_cons_self _ _
    · rename_i best hbest
      split at h
      · cases h
        exact List.mem_cons_self _ _
      · cases h
        exact List.mem_cons_of_mem _ (ih hbest)

/-- C2: at or below the velocity threshold, the low-velocity handler (a)
released exactly at the current snap point's `snapValueY` returns that same
snap point; (b) returns the current snap point whenever no snap point lies
strictly beyond the release position in the travel direction; and (c) returns
the nearest snap point beyond the release position in the travel direction
when the release position lies strictly past the midpoint between the current
point and it. -/
theorem handleLowVelocityDrag_midpoint_rule (csp : SnapPoint) (currentY : ℚ)
    (dir : DragDirection) (sps : List SnapPoint) :
    (currentY = csp.snapValueY →
      handleLowVelocityDrag csp currentY dir sps =
        ⟨csp.snapValueY, some csp.snapIndex⟩) ∧
    ((∀ sp ∈ sps, isBeyond dir currentY sp = false) →
      handleLowVelocityDrag csp currentY dir sps =
        ⟨csp.snapValueY, some csp.snapIndex⟩) ∧
    (∀ next, nearestTo currentY (sps.filter (isBeyond dir currentY)) = some next →
      pastMidpoint dir currentY csp next = true →
      handleLowVelocityDrag csp currentY dir sps =
        ⟨next.snapValueY, some next.snapIndex⟩) := by
  refine ⟨fun hY => ?_, fun hnone => ?_, fun next hn hp => ?_⟩
  · subst hY
    cases hn : nearestTo csp.snapValueY (sps.filter (isBeyond dir csp.snapValueY)) with
    | none => simp [handleLowVelocityDrag, hn]
    | some next =>
      have hmem := nearestTo_mem _ _ _ hn
      have hbey : isBeyond dir csp.snapValueY next = true := (List.mem_filter.mp hmem).2
      have hpast : pastMidpoint dir csp.snapValueY csp next = false := by
        cases dir with
        | down =>
          simp only [isBeyond, decide_eq_true_eq] at hbey
          simp only [pastMidpoint, decide_eq_false_iff_not]
          intro hc
          linarith
        | up =>
          simp only [isBeyond, decide_eq_true_eq] at hbey
          simp only [pastMidpoint, decide_eq_false_iff_not]
          intro hc
          linarith
      simp [handleLowVelocityDrag, hn, hpast]
  · have hfil : sps.filter (isBeyond dir currentY) = [] :=
      List.filter_eq_nil_iff.mpr (fun a ha => by simp [hnone a ha])
    simp [handleLowVelocityDrag, hfil, nearestTo]
  · simp [handleLowVelocityDrag, hn, hp]

/-- C2 witness: resting at index 1 (`y = 400`) of three points, released at
`y = 460`, strictly past the midpoint 450 toward the dismiss point at
`y = 500`: the handler moves to index 0. -/
theorem handleLowVelocityDrag_midpoint_rule_witness :
    nearestTo 460 (([⟨0, 0, 500⟩, ⟨1, 100, 400⟩, ⟨2, 200, 300⟩] :
        List SnapPoint).filter (isBeyond .down 460)) = some ⟨0, 0, 500⟩ ∧
    pastMidpoint .down 460 ⟨1, 100, 400⟩ ⟨0, 0, 500⟩ = true ∧
    handleLowVelocityDrag ⟨1, 100, 400⟩ 460 .down
      [⟨0, 0, 500⟩, ⟨1, 100, 400⟩, ⟨2, 200, 300⟩] = ⟨500, some 0⟩ := by
  have hfil : (([⟨0, 0, 500⟩, ⟨1, 100, 400⟩, ⟨2, 200, 300⟩] :
      List SnapPoint).filter (isBeyond .down 460)) = [⟨0, 0, 500⟩] := by
    norm_num [List.filter, isBeyond]
  have hn : nearestTo 460 (([⟨0, 0, 500⟩, ⟨1, 100, 400⟩, ⟨2, 200, 300⟩] :
      List SnapPoint).filter (isBeyond .down 460)) = some ⟨0, 0, 500⟩ := by
    rw [hfil]
    rfl
  have hp : pastMidpoint .down 460 (⟨1, 100, 400⟩ : SnapPoint)
      (⟨0, 0, 500⟩ : SnapPoint) = true := by
    norm_num [pastMidpoint]
  exact ⟨hn, hp,
    (handleLowVelocityDrag_midpoint_rule ⟨1, 100, 400⟩ 460 .down
      [⟨0, 0, 500⟩, ⟨1, 100, 400⟩, ⟨2, 200, 300⟩]).2.2 ⟨0, 0, 500⟩ hn hp⟩

/-! ## C9 — drag end with dismissal disabled -/

/-- C9 (amended): on drag end with disable-dismiss active the close callback
is never invoked; when a current snap point exists and the handler target
would close the sheet (`yTo + 1 ≥ sheetHeight`), the sheet re-settles at the
first snap point whose `snapValue` is strictly positive — which is the
dismiss point itself whenever the dismiss value is positive, so not
necessarily a non-dismiss point — staying at the current position when no
such point exists; and without a current snap point, past the close
threshold, it re-settles at the open position `y = 0`. -/
theorem dragEndDecision_disableDismiss (vthr cthr sheetHeight closedY : ℚ)
    (sps : List SnapPoint) (csp? : Option SnapPoint)
    (currentY velocityY : ℚ) (result : DragResult) :
    (dragEndDecision true vthr cthr sheetHeight closedY sps csp? currentY
      velocityY result).closeCalled = false ∧
    (∀ c, csp? = some c → sheetHeight ≤ result.yTo + 1 →
      (∀ bottom, sps.find? (fun s => decide (0 < s.snapValue)) = some bottom →
        (dragEndDecision true vthr cthr sheetHeight closedY sps csp? currentY
          velocityY result).yTo = bottom.snapValueY ∧
        (dragEndDecision true vthr cthr sheetHeight closedY sps csp? currentY
          velocityY result).snapUpdates = [bottom.snapIndex]) ∧
      (sps.find? (fun s => decide (0 < s.snapValue)) = none →
        (dragEndDecision true vthr cthr sheetHeight closedY sps csp? currentY
          velocityY result).yTo = currentY)) ∧
    (csp? = none → (vthr < velocityY ∨ sheetHeight * cthr < currentY) →
      (dragEndDecision true vthr cthr sheetHeight closedY sps csp? currentY
        velocityY result).yTo = 0) := by
  refine ⟨?_, fun c hc hclose => ?_, fun hc hthr => ?_⟩
  · simp [dragEndDecision]
  · subst hc
    constructor
    · intro bottom hfind
      simp only [dragEndDecision]
      rw [if_pos ⟨trivial, hclose⟩, hfind]
      exact ⟨rfl, rfl⟩
    · intro hfind
      simp only [dragEndDecision]
      rw [if_pos ⟨trivial, hclose⟩, hfind]
  · subst hc
    simp only [dragEndDecision]
    rw [if_pos hthr]
    simp

/-- C9 witness: disable-dismiss with one open snap point `⟨1, 100, 400⟩`
above the dismiss point `⟨0, 0, 500⟩`: a handler target at the closed
position is re-aimed at that open point and `onClose` stays uncalled. -/
theorem dragEndDecision_disableDismiss_witness :
    ((some (⟨1, 100, 400⟩ : SnapPoint) : Option SnapPoint) =
      some (⟨1, 100, 400⟩ : SnapPoint)) ∧
    ((500 : ℚ) ≤ 500 + 1) ∧
    (([⟨0, 0, 500⟩, ⟨1, 100, 400⟩] : List SnapPoint).find?
      (fun s => decide (0 < s.snapValue)) = some ⟨1, 100, 400⟩) ∧
    (dragEndDecision true 500 1 500 500 [⟨0, 0, 500⟩, ⟨1, 100, 400⟩]
      (some ⟨1, 100, 400⟩) 400 600 ⟨500, some 0⟩).yTo = 400 ∧
    (dragEndDecision true 500 1 500 500 [⟨0, 0, 500⟩, ⟨1, 100, 400⟩]
      (some ⟨1, 100, 400⟩) 400 600 ⟨500, some 0⟩).closeCalled = false := by
  have hfind : (([⟨0, 0, 500⟩, ⟨1, 100, 400⟩] : List SnapPoint).find?
      (fun s => decide (0 < s.snapValue)) = some ⟨1, 100, 400⟩) := by
    norm_num [List.find?]
  have hclose : (500 : ℚ) ≤ 500 + 1 := by norm_num
  have h := dragEndDecision_disableDismiss 500 1 500 500
    [⟨0, 0, 500⟩, ⟨1, 100, 400⟩] (some ⟨1, 100, 400⟩) 400 600 ⟨500, some 0⟩
  exact ⟨rfl, hclose, hfind,
    ((h.2.1 ⟨1, 100, 400⟩ rfl hclose).1 ⟨1, 100, 400⟩ hfind).1, h.1⟩

/-- C9 counterexample: with a positive dismiss value (snap points
`[⟨0, 1, 499⟩, ⟨1, 100, 400⟩]`, e.g. from a bottom safe space of 1px) and a
suppressed dismissal, the sheet re-settles at the dismiss point itself
(`y = 499`), not at the lowest snap point above the dismiss value
(`y = 400`) as the claim states. -/
theorem dragEndDecision_dismiss_point_not_skipped :
    lowestNonDismissSnapPoint [⟨0, 1, 499⟩, ⟨1, 100, 400⟩] =
      some ⟨1, 100, 400⟩ ∧
    handleHighVelocityDrag [⟨0, 1, 499⟩, ⟨1, 100, 400⟩] 1 .down =
      ⟨499, some 0⟩ ∧
    (dragEndDecision true 500 1 500 500 [⟨0, 1, 499⟩, ⟨1, 100, 400⟩]
      (some ⟨1, 100, 400⟩) 450 600 ⟨499, some 0⟩).yTo = 499 ∧
    (dragEndDecision true 500 1 500 500 [⟨0, 1, 499⟩, ⟨1, 100, 400⟩]
      (some ⟨1, 100, 400⟩) 450 600 ⟨499, some 0⟩).snapUpdates = [0] ∧
    (499 : ℚ) ≠ 400 := by
  refine ⟨by norm_num [lowestNonDismissSnapPoint, List.find?], rfl, ?_, ?_, by norm_num⟩
  all_goals
    simp only [dragEndDecision]
    rw [if_pos ⟨trivial, by norm_num⟩]
    norm_num [List.find?]




/-! ## C3 — cancelled open effect cannot complete -/

/-- The invariant holding after the intent has flipped open-then-closed from a
settled closed machine: exactly one close effect has started, no open effect
has completed, the state is `closing` or `closed`, and every pending open
effect's controller has been aborted. -/
def StaleOpenInvariant (m : SheetMachine) : Prop :=
  m.closeEffectStarts = 1 ∧ m.openCompletions = 0 ∧
  (m.state = .closing ∨ m.state = .closed) ∧
  ∀ g ∈ m.pendingOpen, g ∈ m.aborted

/-- `setSheetState` targeted at a terminal state neither starts effects nor
completes the stale open effect, and only extends the aborted set. -/
theorem stale_invariant_resolve (m : SheetMachine) (e : ResolveEvent)
    (h : StaleOpenInvariant m) : StaleOpenInvariant (resolveEffect m e) := by
  obtain ⟨hc, ho, hs, hp⟩ := h
  cases e with
  | openDone g =>
    simp only [resolveEffect]
    by_cases hmem : g ∈ m.pendingOpen
    · rw [if_pos hmem, if_pos (hp g hmem)]
      exact ⟨hc, ho, hs, fun g' hg' => hp g' (List.mem_of_mem_erase hg')⟩
    · rw [if_neg hmem]
      exact ⟨hc, ho, hs, hp⟩
  | closeDone g =>
    simp only [resolveEffect]
    by_cases hmem : g ∈ m.pendingClose
    · rw [if_pos hmem]
      by_cases hab : g ∈ m.aborted
      · rw [if_pos hab]
        exact ⟨hc, ho, hs, hp⟩
      · rw [if_neg hab]
        simp only [setSheetState]
        by_cases hst : m.state = SheetState.closed
        · rw [if_pos (by simp [hst])]
          exact ⟨hc, ho, hs, hp⟩
        · rw [if_neg (by simp [hst])]
          simp only [startStateEffect, abortCurrent]
          exact ⟨hc, ho, Or.inr rfl, fun g' hg' => List.mem_cons_of_mem _ (hp g' hg')⟩
    · rw [if_neg hmem]
      exact ⟨hc, ho, hs, hp⟩

/-- C3: starting from a settled `closed` machine, flipping the open intent to
true and then back to false before the open effect resolves leaves a machine
in which — whatever effect settlements follow — the close effect has been
invoked exactly once, the stale open effect's completion never runs its
post-state-change (zero open completions), and the state is never `open`:
the stale completion is a no-op because its cancellation token was aborted. -/
theorem staleOpenEffect_noop (es : List ResolveEvent) :
    (runResolves (flipIntent (flipIntent settledClosed true) false) es).closeEffectStarts = 1 ∧
    (runResolves (flipIntent (flipIntent settledClosed true) false) es).openCompletions = 0 ∧
    (runResolves (flipIntent (flipIntent settledClosed true) false) es).state ≠ .open_ := by
  have hinv0 : StaleOpenInvariant (flipIntent (flipIntent settledClosed true) false) := by
    refine ⟨rfl, rfl, Or.inl rfl, ?_⟩
    decide
  have hrun : ∀ (l : List ResolveEvent) (m : SheetMachine), StaleOpenInvariant m →
      StaleOpenInvariant (runResolves m l) := by
    intro l
    induction l with
    | nil => exact fun m h => h
    | cons e t ih =>
      intro m h
      exact ih (resolveEffect m e) (stale_invariant_resolve m e h)
  obtain ⟨hc, ho, hs, -⟩ := hrun es _ hinv0
  refine ⟨hc, ho, ?_⟩
  rcases hs with hs | hs <;> simp [hs]

/-! ## C10 — keyboard state invariant -/

/-- C10: with a nonnegative visual-viewport threshold (default 100px), every
keyboard state the hook publishes satisfies `isVisible = true ↔ height > 0`:
the initial state is `{isVisible := false, height := 0}`, focus-out publishes
`{isVisible := false, height := 0}` regardless of the platform signals, and
the visual-viewport fallback reports visible only when the window/viewport
height difference strictly exceeds the threshold. -/
theorem virtualKeyboard_state_invariant (t : ℚ) (ht : 0 ≤ t) :
    (initialKeyboardState.isVisible = true ↔ 0 < initialKeyboardState.height) ∧
    (∀ vk vv, updateKeyboardState false vk vv t = some initialKeyboardState) ∧
    (∀ focused vk vv st, updateKeyboardState focused vk vv t = some st →
      (st.isVisible = true ↔ 0 < st.height)) ∧
    (∀ focused windowInnerHeight vvHeight st,
      updateKeyboardState focused none (some (windowInnerHeight, vvHeight)) t = some st →
      st.isVisible = true → t < windowInnerHeight - vvHeight) := by
  refine ⟨by simp [initialKeyboardState], fun vk vv => rfl, ?_, ?_⟩
  · intro focused vk vv st hst
    cases focused with
    | false =>
      simp only [updateKeyboardState, Bool.not_false, if_pos rfl] at hst
      cases hst
      simp [initialKeyboardState]
    | true =>
      simp only [updateKeyboardState, Bool.not_true] at hst
      rw [if_neg (by simp)] at hst
      cases vk with
      | some vkHeight =>
        simp only at hst
        cases hst
        simp
      | none =>
        cases vv with
        | none => simp only at hst; cases hst
        | some p =>
          obtain ⟨ih, vh⟩ := p
          simp only at hst
          by_cases hgt : t < ih - vh
          · rw [if_pos hgt] at hst
            cases hst
            simp only
            constructor
            · intro
              linarith
            · intro
              trivial
          · rw [if_neg hgt] at hst
            cases hst
            simp
  · intro focused ih vh st hst hvis
    cases focused with
    | false =>
      simp only [updateKeyboardState, Bool.not_false, if_pos rfl] at hst
      injection hst with h
      rw [← h] at hvis
      exact absurd hvis (by decide)
    | true =>
      simp only [updateKeyboardState, Bool.not_true] at hst
      rw [if_neg (by simp)] at hst
      by_cases hgt : t < ih - vh
      · exact hgt
      · rw [if_neg hgt] at hst
        cases hst
        simp at hvis

/-- C10 witness: threshold 100; with no input focused the published state is
the hidden one whatever the platform reports. -/
theorem virtualKeyboard_state_invariant_witness :
    (0 : ℚ) ≤ 100 ∧
    updateKeyboardState false (some 250) none 100 = some initialKeyboardState :=
  ⟨by norm_num,
    (virtualKeyboard_state_invariant 100 (by norm_num)).2.1 (some 250) none⟩

/-- C3 witness: a concrete run — the stale open effect (generation 1) and the
close effect (generation 2) both settle after the intent flip-flop; the close
effect ran once, no open completion happened and the state is not `open`. -/
theorem staleOpenEffect_noop_witness :
    (runResolves (flipIntent (flipIntent settledClosed true) false)
      [.openDone 1, .closeDone 2]).closeEffectStarts = 1 ∧
    (runResolves (flipIntent (flipIntent settledClosed true) false)
      [.openDone 1, .closeDone 2]).openCompletions = 0 ∧
    (runResolves (flipIntent (flipIntent settledClosed true) false)
      [.openDone 1, .closeDone 2]).state ≠ .open_ :=
  staleOpenEffect_noop [.openDone 1, .closeDone 2]

/-- C7 witness: the strictly ascending array `[1, 2]` is accepted. -/
theorem isAscendingOrder_iff_weakly_ascending_witness :
    isAscendingOrder [1, 2] = true ↔ List.Chain' (· ≤ ·) [(1 : ℚ), 2] :=
  isAscendingOrder_iff_weakly_ascending [1, 2]
